import Mathlib

/-!
Verification of `matchms/networking/SimilarityNetwork.py`.

The Python class `SimilarityNetwork` is shallowly embedded below:
scores are modelled as rationals (the source only copies and compares
them, never performs float arithmetic whose rounding could matter),
item metadata values as strings (the spec restricts identifiers to
strings), Python `int` parameters as `Int`, and attributes that
`__init__` may leave unassigned as `Option` fields where `none` means
"attribute missing" (reading such a field raises `AttributeError`).
A call to `create_network` returns the post-call object state together
with an optional exception message (`none` = normal return), mirroring
the fact that the Python method mutates `self.graph` only in its final
statement.
-/

namespace Matchms

/-- Python slice `xs[:n]` for an `int` `n`: for nonnegative `n` the first
`n` elements, for negative `n` everything but the last `-n` elements. -/
def pyTake {α : Type} (n : Int) (xs : List α) : List α :=
  if 0 ≤ n then xs.take n.toNat else xs.take ((xs.length : Int) + n).toNat

/-- An item being compared (a spectrum).  Its metadata is a key/value
store with string values; `Spectrum.get` is the duck-typed
`spectrum.get(key)` lookup used for the configured identifier
(spec section 3: identifiers are strings drawn from an attribute key). -/
structure Spectrum where
  metadata : List (String × String)
deriving DecidableEq, Repr

/-- Python `spectrum.get(key)` (missing keys modelled by `""`). -/
def Spectrum.get (s : Spectrum) (key : String) : String :=
  (s.metadata.lookup key).getD ""

/-- The matchms `Scores` object as used by `create_network`: an ordered
collection of query items, an ordered collection of reference items and
a two dimensional score lookup by (query position, reference position). -/
structure Scores where
  queries : List Spectrum
  references : List Spectrum
  score : Nat → Nat → ℚ

/-- Stable descending insertion: `j` is placed before the first element
of strictly smaller score, so equal scores keep their original order. -/
def insertDesc (score : Nat → ℚ) (j : Nat) : List Nat → List Nat
  | [] => [j]
  | k :: rest => if score k < score j then j :: k :: rest else k :: insertDesc score j rest

/-- Stable sort of candidate positions by descending score
(ties keep original index order). -/
def sortDesc (score : Nat → ℚ) : List Nat → List Nat
  | [] => []
  | j :: rest => insertDesc score j (sortDesc score rest)

/-- Last query position carrying a given identifier value (Python dict
construction: later entries with the same key overwrite earlier ones). -/
def lastPosWithId (scores : Scores) (identifier : String) (qid : String) : Option Nat :=
  (((scores.queries.enum).filter (fun p => p.2.get identifier == qid)).map Prod.fst).getLast?

/-- Modelled from the spec: `get_top_hits` lives in
`matchms/networking/networking_functions.py`, which is not part of the
sources; spec sections 4.1 and 6 describe it.  For each query item it
ranks all reference positions other than the item's own position by
descending score (stable, ties broken by original index order),
truncates to the first `top_n`, and returns the positions and the
corresponding scores keyed by the item's identifier value. -/
def get_top_hits (scores : Scores) (top_n : Int) (identifier : String) :
    (String → List Nat) × (String → List ℚ) :=
  let rankFor : Nat → List Nat := fun i =>
    pyTake top_n (sortDesc (scores.score i)
      ((List.range scores.references.length).filter (fun j => j ≠ i)))
  (fun qid =>
    match lastPosWithId scores identifier qid with
    | some i => rankFor i
    | none => [],
   fun qid =>
    match lastPosWithId scores identifier qid with
    | some i => (rankFor i).map (fun j => scores.score i j)
    | none => [])

/-- The `networkx.Graph` fragment the source uses: a node list (kept
without duplicates, insertion order) and an undirected weighted edge
list holding at most one entry per unordered endpoint pair. -/
structure Graph where
  nodes : List String
  edges : List (String × String × ℚ)
deriving DecidableEq, Repr

/-- Does the stored edge `e` connect `u` and `v` (either orientation)? -/
def sameEdgePair (u v : String) (e : String × String × ℚ) : Bool :=
  (e.1 == u && e.2.1 == v) || (e.1 == v && e.2.1 == u)

/-- `networkx` node insertion: a node already present is not duplicated. -/
def addNode (g : Graph) (n : String) : Graph :=
  if n ∈ g.nodes then g else { g with nodes := g.nodes ++ [n] }

/-- `networkx.Graph.add_edge(u, v, weight=w)`: endpoints are inserted as
nodes when missing; if the unordered pair already has an edge its weight
is overwritten, otherwise the edge is appended. -/
def addWeightedEdge (g : Graph) (u v : String) (w : ℚ) : Graph :=
  let g1 := addNode (addNode g u) v
  if g1.edges.any (sameEdgePair u v) then
    { g1 with edges := g1.edges.map (fun e => if sameEdgePair u v e then (e.1, e.2.1, w) else e) }
  else
    { g1 with edges := g1.edges ++ [(u, v, w)] }

/-- `networkx.Graph.add_weighted_edges_from`. -/
def addWeightedEdgesFrom (g : Graph) (l : List (String × String × ℚ)) : Graph :=
  l.foldl (fun g e => addWeightedEdge g e.1 e.2.1 e.2.2) g

/-- Edge membership as an unordered endpoint pair, the way
`networkx.Graph.edges` exposes the edge set. -/
def Graph.hasEdge (g : Graph) (a b : String) : Prop :=
  ∃ w, (a, b, w) ∈ g.edges ∨ (b, a, w) ∈ g.edges

/-- The builder object.  `cutoff` and `link_method` are the attributes
`create_network` reads; `__init__` never assigns them, which is modelled
by the value `none` ("attribute missing"). -/
structure SimilarityNetwork where
  identifier : String
  top_n : Int
  max_links : Int
  score_cutoff : ℚ
  cutoff : Option ℚ
  link_method : Option String
  graph : Option Graph
deriving DecidableEq, Repr

/-- `SimilarityNetwork.__init__` (source lines 43-69): stores the four
constructor parameters and `graph = None`; it performs no validation and
assigns neither `cutoff` nor `link_method`. -/
def SimilarityNetwork.init (identifier : String) (top_n : Int) (max_links : Int)
    (score_cutoff : ℚ) : SimilarityNetwork :=
  { identifier := identifier
    top_n := top_n
    max_links := max_links
    score_cutoff := score_cutoff
    cutoff := none
    link_method := none
    graph := none }

/-- The unique identifier collection of source line 86:
`list({s.get(self.identifier) for s in scores.queries})` (set semantics:
duplicates collapse; iteration order is irrelevant to every property
proved below). -/
def uniqueIds (identifier : String) (scores : Scores) : List String :=
  (scores.queries.map (fun s => s.get identifier)).dedup

/-- The per-query candidate edges of source lines 100-110: pair the
top-hit scores with the corresponding reference identifiers, keep the
positions whose score reaches the cutoff and whose candidate differs
from the query (line 102-103), truncate to the first `max_links`
(line 103), and for `link_method = "mutual"` additionally require the
query position to occur in the candidate's own top-hit index list
(line 110).  Each surviving entry becomes the weighted edge
`(query_id, candidate_id, score)`; `str` and `float` of the source are
identities on the string/rational model. -/
def proposedEdges (identifier : String) (max_links : Int) (cutoff : ℚ) (method : String)
    (scores : Scores) (simIdx : String → List Nat) (simScores : String → List ℚ)
    (i : Nat) (spec : Spectrum) : List (String × String × ℚ) :=
  let query_id := spec.get identifier
  let ref_candidates := (simIdx query_id).map
    (fun x => (scores.references.getD x ⟨[]⟩).get identifier)
  let pairs := (simScores query_id).zip ref_candidates
  let kept := pyTake max_links
    ((pairs.enum).filter (fun pe => decide (cutoff ≤ pe.2.1) && decide (pe.2.2 ≠ query_id)))
  let kept2 := if method = "mutual"
    then kept.filter (fun pe => decide (i ∈ simIdx pe.2.2))
    else kept
  kept2.map (fun pe => (query_id, pe.2.2, pe.2.1))

/-- The loop of source lines 97-114 over `enumerate(scores.queries)`.
Reading the missing attributes `self.cutoff` or `self.link_method`
raises `AttributeError` inside the first iteration; an unrecognized
link method raises `ValueError` (line 112) before any edge of that
iteration is added. -/
def buildLoop (identifier : String) (max_links : Int) (cutoff : Option ℚ)
    (method : Option String) (scores : Scores) (simIdx : String → List Nat)
    (simScores : String → List ℚ) : Graph → List (Nat × Spectrum) → Except String Graph
  | g, [] => .ok g
  | g, p :: rest =>
    match cutoff with
    | none => .error "AttributeError: SimilarityNetwork object has no attribute cutoff"
    | some c =>
      match method with
      | none => .error "AttributeError: SimilarityNetwork object has no attribute link_method"
      | some m =>
        if m = "single" ∨ m = "mutual" then
          buildLoop identifier max_links (some c) (some m) scores simIdx simScores
            (addWeightedEdgesFrom g (proposedEdges identifier max_links c m scores simIdx simScores p.1 p.2))
            rest
        else .error "ValueError: Link method not kown"

/-- `SimilarityNetwork.create_network` (source lines 71-116).  Returns
the post-call object state and the raised exception, if any: the two
asserts of lines 83-85, then node initialization from the unique
identifiers (lines 86-90), the top-hit lookup (line 93), the edge loop
(lines 97-114) and finally — only on normal completion — the single
mutation `self.graph = msnet` (line 116). -/
def SimilarityNetwork.create_network (self : SimilarityNetwork) (scores : Scores) :
    SimilarityNetwork × Option String :=
  if ¬ (self.max_links ≤ self.top_n) then
    (self, some "AssertionError: top_n must be >= max_links")
  else if ¬ (scores.queries = scores.references) then
    (self, some "AssertionError: Expected symmetric scores object with queries==references")
  else
    match buildLoop self.identifier self.max_links self.cutoff self.link_method
        scores (get_top_hits scores self.top_n self.identifier).1
        (get_top_hits scores self.top_n self.identifier).2
        { nodes := uniqueIds self.identifier scores, edges := [] }
        scores.queries.enum with
    | .error e => (self, some e)
    | .ok g => ({ self with graph := some g }, none)

/-! ### Basic lemmas about the list helpers -/

theorem pyTake_sublist {α : Type} (n : Int) (xs : List α) : (pyTake n xs).Sublist xs := by
  unfold pyTake
  split <;> exact List.take_sublist _ _

theorem pyTake_length_le {α : Type} {n : Int} (xs : List α) (h : 0 ≤ n) :
    (pyTake n xs).length ≤ n.toNat := by
  unfold pyTake
  rw [if_pos h]
  exact List.length_take_le _ _

theorem mem_insertDesc {score : Nat → ℚ} {j x : Nat} :
    ∀ {l : List Nat}, x ∈ insertDesc score j l ↔ x = j ∨ x ∈ l := by
  intro l
  induction l with
  | nil => simp [insertDesc]
  | cons k rest ih =>
    unfold insertDesc
    split
    · simp
    · simp only [List.mem_cons, ih]
      tauto

theorem mem_sortDesc {score : Nat → ℚ} {x : Nat} :
    ∀ {l : List Nat}, x ∈ sortDesc score l ↔ x ∈ l := by
  intro l
  induction l with
  | nil => simp [sortDesc]
  | cons j rest ih =>
    unfold sortDesc
    rw [mem_insertDesc]
    simp [ih]

theorem snd_mem_of_mem_enumFrom {α : Type} :
    ∀ {l : List α} {n : Nat} {p : Nat × α}, p ∈ l.enumFrom n → p.2 ∈ l := by
  intro l
  induction l with
  | nil => intro n p h; simp [List.enumFrom] at h
  | cons a t ih =>
    intro n p h
    rw [List.enumFrom] at h
    rcases List.mem_cons.mp h with h1 | h1
    · subst h1; exact List.mem_cons_self _ _
    · exact List.mem_cons_of_mem _ (ih h1)

theorem snd_mem_of_mem_enum {α : Type} {l : List α} {p : Nat × α} (h : p ∈ l.enum) :
    p.2 ∈ l :=
  snd_mem_of_mem_enumFrom h

/-- Every position returned by the top-hit selector is a valid index
into the reference collection. -/
theorem get_top_hits_idx_lt {scores : Scores} {top_n : Int} {identifier : String}
    {qid : String} {x : Nat} (h : x ∈ (get_top_hits scores top_n identifier).1 qid) :
    x < scores.references.length := by
  unfold get_top_hits at h
  simp only at h
  rcases hm : lastPosWithId scores identifier qid with _ | i <;> rw [hm] at h
  · simp at h
  · have h2 := (pyTake_sublist _ _).mem h
    have h3 := mem_sortDesc.mp h2
    have h4 := List.mem_of_mem_filter h3
    exact List.mem_range.mp h4

/-! ### Lemmas about the graph operations -/

theorem addNode_edges (g : Graph) (n : String) : (addNode g n).edges = g.edges := by
  unfold addNode; split <;> rfl

theorem mem_addNode_nodes {g : Graph} {n x : String} :
    x ∈ (addNode g n).nodes ↔ x ∈ g.nodes ∨ x = n := by
  unfold addNode
  split
  · rename_i h
    constructor
    · exact Or.inl
    · rintro (h1 | rfl) <;> [exact h1; exact h]
  · simp

theorem addNode_nodup {g : Graph} (h : g.nodes.Nodup) (n : String) :
    (addNode g n).nodes.Nodup := by
  unfold addNode
  split
  · exact h
  · rename_i hn
    simpa using List.Nodup.append h (List.nodup_singleton n) (by simpa using hn)

theorem addWeightedEdge_nodes (g : Graph) (u v : String) (w : ℚ) :
    (addWeightedEdge g u v w).nodes = (addNode (addNode g u) v).nodes := by
  simp only [addWeightedEdge]
  split <;> rfl

theorem mem_addWeightedEdge_nodes {g : Graph} {u v x : String} {w : ℚ} :
    x ∈ (addWeightedEdge g u v w).nodes ↔ x ∈ g.nodes ∨ x = u ∨ x = v := by
  rw [addWeightedEdge_nodes, mem_addNode_nodes, mem_addNode_nodes]
  tauto

theorem addWeightedEdge_nodes_nodup {g : Graph} (h : g.nodes.Nodup) (u v : String) (w : ℚ) :
    (addWeightedEdge g u v w).nodes.Nodup := by
  rw [addWeightedEdge_nodes]
  exact addNode_nodup (addNode_nodup h u) v

theorem addWeightedEdge_edges_eq (g : Graph) (u v : String) (w : ℚ) :
    (addWeightedEdge g u v w).edges =
      if g.edges.any (sameEdgePair u v) then
        g.edges.map (fun e => if sameEdgePair u v e then (e.1, e.2.1, w) else e)
      else g.edges ++ [(u, v, w)] := by
  simp only [addWeightedEdge]
  rw [addNode_edges, addNode_edges]
  split <;> rfl

theorem mem_addWeightedEdge_edges {g : Graph} {u v : String} {w : ℚ}
    {e : String × String × ℚ} (h : e ∈ (addWeightedEdge g u v w).edges) :
    e ∈ g.edges ∨ (∃ e0 ∈ g.edges, e = (e0.1, e0.2.1, w)) ∨ e = (u, v, w) := by
  rw [addWeightedEdge_edges_eq] at h
  split at h
  · rcases List.mem_map.mp h with ⟨e0, he0, he⟩
    by_cases hs : sameEdgePair u v e0 = true
    · rw [if_pos hs] at he
      exact Or.inr (Or.inl ⟨e0, he0, he.symm⟩)
    · rw [if_neg hs] at he
      exact Or.inl (he ▸ he0)
  · rcases List.mem_append.mp h with h1 | h1
    · exact Or.inl h1
    · exact Or.inr (Or.inr (List.mem_singleton.mp h1))

/-- Invariants split into an endpoint part and a weight part survive
`add_edge`: an overwrite keeps the stored endpoints and installs the new
weight. -/
theorem addWeightedEdge_edge_inv {P : String → String → Prop} {Q : ℚ → Prop}
    {g : Graph} {u v : String} {w : ℚ}
    (hg : ∀ e ∈ g.edges, P e.1 e.2.1 ∧ Q e.2.2) (hu : P u v) (hw : Q w) :
    ∀ e ∈ (addWeightedEdge g u v w).edges, P e.1 e.2.1 ∧ Q e.2.2 := by
  intro e he
  rcases mem_addWeightedEdge_edges he with h1 | ⟨e0, he0, rfl⟩ | rfl
  · exact hg e h1
  · exact ⟨(hg e0 he0).1, hw⟩
  · exact ⟨hu, hw⟩

theorem addWeightedEdgesFrom_edge_inv {P : String → String → Prop} {Q : ℚ → Prop} :
    ∀ {l : List (String × String × ℚ)} {g : Graph},
      (∀ e ∈ g.edges, P e.1 e.2.1 ∧ Q e.2.2) → (∀ e ∈ l, P e.1 e.2.1 ∧ Q e.2.2) →
      ∀ e ∈ (addWeightedEdgesFrom g l).edges, P e.1 e.2.1 ∧ Q e.2.2 := by
  intro l
  induction l with
  | nil => intro g hg _ e he; exact hg e he
  | cons a t ih =>
    intro g hg hl e he
    have ha := hl a (List.mem_cons_self _ _)
    exact ih (addWeightedEdge_edge_inv hg ha.1 ha.2)
      (fun e' he' => hl e' (List.mem_cons_of_mem _ he')) e he

theorem mem_addWeightedEdgesFrom_nodes :
    ∀ {l : List (String × String × ℚ)} {g : Graph} {x : String},
      x ∈ (addWeightedEdgesFrom g l).nodes ↔
        x ∈ g.nodes ∨ ∃ e ∈ l, x = e.1 ∨ x = e.2.1 := by
  intro l
  induction l with
  | nil => simp [addWeightedEdgesFrom]
  | cons a t ih =>
    intro g x
    show x ∈ (addWeightedEdgesFrom (addWeightedEdge g a.1 a.2.1 a.2.2) t).nodes ↔ _
    rw [ih, mem_addWeightedEdge_nodes]
    constructor
    · rintro ((h | h | h) | ⟨e, he, h⟩)
      · exact Or.inl h
      · exact Or.inr ⟨a, List.mem_cons_self _ _, Or.inl h⟩
      · exact Or.inr ⟨a, List.mem_cons_self _ _, Or.inr h⟩
      · exact Or.inr ⟨e, List.mem_cons_of_mem _ he, h⟩
    · rintro (h | ⟨e, he, h⟩)
      · exact Or.inl (Or.inl h)
      · rcases List.mem_cons.mp he with rfl | he'
        · exact Or.inl (Or.inr h)
        · exact Or.inr ⟨e, he', h⟩

theorem addWeightedEdgesFrom_nodes_nodup :
    ∀ {l : List (String × String × ℚ)} {g : Graph},
      g.nodes.Nodup → (addWeightedEdgesFrom g l).nodes.Nodup := by
  intro l
  induction l with
  | nil => intro g hg; exact hg
  | cons a t ih =>
    intro g hg
    exact ih (addWeightedEdge_nodes_nodup hg _ _ _)

/-- Membership of an unordered endpoint pair in a proposed edge list. -/
def pairMem (l : List (String × String × ℚ)) (a b : String) : Prop :=
  ∃ e ∈ l, (e.1 = a ∧ e.2.1 = b) ∨ (e.1 = b ∧ e.2.1 = a)

theorem addWeightedEdge_hasEdge_iff {g : Graph} {u v a b : String} {w : ℚ} :
    (addWeightedEdge g u v w).hasEdge a b ↔
      g.hasEdge a b ∨ (a = u ∧ b = v) ∨ (a = v ∧ b = u) := by
  constructor
  · rintro ⟨w', hw'⟩
    have key : ∀ {x y : String}, (x, y, w') ∈ (addWeightedEdge g u v w).edges →
        g.hasEdge x y ∨ (x = u ∧ y = v) ∨ (x = v ∧ y = u) := by
      intro x y hxy
      rcases mem_addWeightedEdge_edges hxy with h1 | ⟨⟨p, q, r⟩, he0, he⟩ | he
      · exact Or.inl ⟨w', Or.inl h1⟩
      · simp only [Prod.mk.injEq] at he
        rcases he with ⟨rfl, rfl, -⟩
        exact Or.inl ⟨r, Or.inl he0⟩
      · simp only [Prod.mk.injEq] at he
        rcases he with ⟨rfl, rfl, -⟩
        exact Or.inr (Or.inl ⟨rfl, rfl⟩)
    rcases hw' with h | h
    · exact key h
    · rcases key h with h1 | ⟨h1, h2⟩ | ⟨h1, h2⟩
      · rcases h1 with ⟨w2, h1⟩
        exact Or.inl ⟨w2, h1.symm⟩
      · exact Or.inr (Or.inr ⟨h2, h1⟩)
      · exact Or.inr (Or.inl ⟨h2, h1⟩)
  · intro h
    unfold Graph.hasEdge
    rw [addWeightedEdge_edges_eq]
    split
    · rename_i hany
      rcases List.any_eq_true.mp hany with ⟨e0, he0, hs0⟩
      rcases h with ⟨w', hw'⟩ | ⟨rfl, rfl⟩ | ⟨rfl, rfl⟩
      · -- an old edge with endpoints (a, b) keeps its endpoints under the map
        rcases hw' with h1 | h1
        · by_cases hs : sameEdgePair u v (a, b, w') = true
          · exact ⟨w, Or.inl (List.mem_map.mpr ⟨(a, b, w'), h1, by rw [if_pos hs]⟩)⟩
          · exact ⟨w', Or.inl (List.mem_map.mpr ⟨(a, b, w'), h1, by rw [if_neg hs]⟩)⟩
        · by_cases hs : sameEdgePair u v (b, a, w') = true
          · exact ⟨w, Or.inr (List.mem_map.mpr ⟨(b, a, w'), h1, by rw [if_pos hs]⟩)⟩
          · exact ⟨w', Or.inr (List.mem_map.mpr ⟨(b, a, w'), h1, by rw [if_neg hs]⟩)⟩
      · -- the matched stored edge is re-weighted but keeps connecting u and v
        rcases Bool.or_eq_true _ _ |>.mp hs0 with hcase | hcase
        · have h1 : e0.1 = a := by
            have := (Bool.and_eq_true _ _).mp hcase
            exact beq_iff_eq.mp this.1
          have h2 : e0.2.1 = b := by
            have := (Bool.and_eq_true _ _).mp hcase
            exact beq_iff_eq.mp this.2
          refine ⟨w, Or.inl ?_⟩
          refine List.mem_map.mpr ⟨e0, he0, ?_⟩
          rw [if_pos hs0, h1, h2]
        · have h1 : e0.1 = b := by
            have := (Bool.and_eq_true _ _).mp hcase
            exact beq_iff_eq.mp this.1
          have h2 : e0.2.1 = a := by
            have := (Bool.and_eq_true _ _).mp hcase
            exact beq_iff_eq.mp this.2
          refine ⟨w, Or.inr ?_⟩
          refine List.mem_map.mpr ⟨e0, he0, ?_⟩
          rw [if_pos hs0, h1, h2]
      · rcases Bool.or_eq_true _ _ |>.mp hs0 with hcase | hcase
        · have h1 : e0.1 = b := by
            have := (Bool.and_eq_true _ _).mp hcase
            exact beq_iff_eq.mp this.1
          have h2 : e0.2.1 = a := by
            have := (Bool.and_eq_true _ _).mp hcase
            exact beq_iff_eq.mp this.2
          refine ⟨w, Or.inr ?_⟩
          refine List.mem_map.mpr ⟨e0, he0, ?_⟩
          rw [if_pos hs0, h1, h2]
        · have h1 : e0.1 = a := by
            have := (Bool.and_eq_true _ _).mp hcase
            exact beq_iff_eq.mp this.1
          have h2 : e0.2.1 = b := by
            have := (Bool.and_eq_true _ _).mp hcase
            exact beq_iff_eq.mp this.2
          refine ⟨w, Or.inl ?_⟩
          refine List.mem_map.mpr ⟨e0, he0, ?_⟩
          rw [if_pos hs0, h1, h2]
    · rcases h with ⟨w', hw'⟩ | ⟨rfl, rfl⟩ | ⟨rfl, rfl⟩
      · rcases hw' with h1 | h1
        · exact ⟨w', Or.inl (List.mem_append_left _ h1)⟩
        · exact ⟨w', Or.inr (List.mem_append_left _ h1)⟩
      · exact ⟨w, Or.inl (List.mem_append_right _ (List.mem_singleton_self _))⟩
      · exact ⟨w, Or.inr (List.mem_append_right _ (List.mem_singleton_self _))⟩

theorem addWeightedEdgesFrom_hasEdge_iff :
    ∀ {l : List (String × String × ℚ)} {g : Graph} {a b : String},
      (addWeightedEdgesFrom g l).hasEdge a b ↔ g.hasEdge a b ∨ pairMem l a b := by
  intro l
  induction l with
  | nil =>
    intro g a b
    simp only [addWeightedEdgesFrom, List.foldl_nil, pairMem]
    simp
  | cons e t ih =>
    intro g a b
    show (addWeightedEdgesFrom (addWeightedEdge g e.1 e.2.1 e.2.2) t).hasEdge a b ↔ _
    rw [ih, addWeightedEdge_hasEdge_iff]
    constructor
    · rintro ((h | ⟨rfl, rfl⟩ | ⟨rfl, rfl⟩) | ⟨e', he', h⟩)
      · exact Or.inl h
      · exact Or.inr ⟨e, List.mem_cons_self _ _, Or.inl ⟨rfl, rfl⟩⟩
      · exact Or.inr ⟨e, List.mem_cons_self _ _, Or.inr ⟨rfl, rfl⟩⟩
      · exact Or.inr ⟨e', List.mem_cons_of_mem _ he', h⟩
    · rintro (h | ⟨e', he', h⟩)
      · exact Or.inl (Or.inl h)
      · rcases List.mem_cons.mp he' with rfl | he''
        · rcases h with ⟨h1, h2⟩ | ⟨h1, h2⟩
          · exact Or.inl (Or.inr (Or.inl ⟨h1.symm, h2.symm⟩))
          · exact Or.inl (Or.inr (Or.inr ⟨h2.symm, h1.symm⟩))
        · exact Or.inr ⟨e', he'', h⟩

/-! ### Lemmas about the per-query proposals -/

/-- Every edge proposed for query item `(i, spec)` starts at the query
identifier, has weight at least the cutoff, ends at a candidate distinct
from the query identifier, and that candidate is the identifier of the
reference item at some top-hit position of the query. -/
theorem mem_proposedEdges {identifier : String} {max_links : Int} {cutoff : ℚ}
    {method : String} {scores : Scores} {simIdx : String → List Nat}
    {simScores : String → List ℚ} {i : Nat} {spec : Spectrum}
    {e : String × String × ℚ}
    (h : e ∈ proposedEdges identifier max_links cutoff method scores simIdx simScores i spec) :
    e.1 = spec.get identifier ∧ cutoff ≤ e.2.2 ∧ e.2.1 ≠ spec.get identifier ∧
      ∃ x ∈ simIdx (spec.get identifier),
        e.2.1 = (scores.references.getD x ⟨[]⟩).get identifier := by
  unfold proposedEdges at h
  simp only at h
  rcases List.mem_map.mp h with ⟨pe, hpe, he⟩
  have hkept : pe ∈ pyTake max_links
      ((((simScores (spec.get identifier)).zip
          ((simIdx (spec.get identifier)).map
            (fun x => (scores.references.getD x ⟨[]⟩).get identifier))).enum).filter
        (fun pe => decide (cutoff ≤ pe.2.1) && decide (pe.2.2 ≠ spec.get identifier))) := by
    split at hpe
    · exact List.mem_of_mem_filter hpe
    · exact hpe
  have hfil := (pyTake_sublist _ _).mem hkept
  have hp := List.of_mem_filter hfil
  have hmem := List.mem_of_mem_filter hfil
  have hzip : pe.2 ∈ (simScores (spec.get identifier)).zip
      ((simIdx (spec.get identifier)).map
        (fun x => (scores.references.getD x ⟨[]⟩).get identifier)) :=
    snd_mem_of_mem_enum hmem
  have hsnd : pe.2.2 ∈ (simIdx (spec.get identifier)).map
      (fun x => (scores.references.getD x ⟨[]⟩).get identifier) := by
    exact (List.of_mem_zip hzip).2
  rcases List.mem_map.mp hsnd with ⟨x, hx, hxe⟩
  rw [Bool.and_eq_true, decide_eq_true_eq, decide_eq_true_eq] at hp
  subst he
  exact ⟨rfl, hp.1, hp.2, x, hx, hxe.symm⟩

/-- C6: degree cap on outgoing proposals — the list of edges proposed by
a single query item during one `create_network` pass (the per-iteration
`new_edges` of source lines 104-110, before merging with proposals of
other items) never holds more than `max_links` entries, for any
nonnegative `max_links` (the spec classes smaller values as invalid
parameters); a node's final degree may still exceed `max_links` through
incoming edges. -/
theorem proposedEdges_degree_cap (identifier : String) (max_links : Int) (cutoff : ℚ)
    (method : String) (scores : Scores) (simIdx : String → List Nat)
    (simScores : String → List ℚ) (i : Nat) (spec : Spectrum) (h : 0 ≤ max_links) :
    ((proposedEdges identifier max_links cutoff method scores simIdx simScores i spec).length : Int)
      ≤ max_links := by
  unfold proposedEdges
  simp only [List.length_map]
  have hbase := pyTake_length_le
    ((((simScores (spec.get identifier)).zip
        ((simIdx (spec.get identifier)).map
          (fun x => (scores.references.getD x ⟨[]⟩).get identifier))).enum).filter
      (fun pe => decide (cutoff ≤ pe.2.1) && decide (pe.2.2 ≠ spec.get identifier))) h
  have hto : (max_links.toNat : Int) = max_links := Int.toNat_of_nonneg h
  split
  · rename_i hm
    calc ((List.length _ : Nat) : Int)
        ≤ ((List.length (pyTake max_links _) : Nat) : Int) := by
          exact_mod_cast List.Sublist.length_le (List.filter_sublist _)
      _ ≤ (max_links.toNat : Int) := by exact_mod_cast hbase
      _ = max_links := hto
  · calc ((List.length (pyTake max_links _) : Nat) : Int)
        ≤ (max_links.toNat : Int) := by exact_mod_cast hbase
      _ = max_links := hto

/-- For identical inputs the mutual proposal list is a sublist of the
single-method proposal list: the mutual method only adds the
reciprocity filter after cutoff, self-exclusion and truncation. -/
theorem proposedEdges_mutual_sublist {identifier : String} {max_links : Int} {cutoff : ℚ}
    {scores : Scores} {simIdx : String → List Nat} {simScores : String → List ℚ}
    {i : Nat} {spec : Spectrum} :
    (proposedEdges identifier max_links cutoff "mutual" scores simIdx simScores i spec).Sublist
      (proposedEdges identifier max_links cutoff "single" scores simIdx simScores i spec) := by
  unfold proposedEdges
  simp only [if_pos rfl, if_neg (by decide : ¬ ("single" : String) = "mutual")]
  exact (List.filter_sublist _).map _

/-! ### The edge loop under valid attributes, and the success inversion -/

/-- The edge loop of `create_network` as a pure fold, equal to
`buildLoop` whenever the `cutoff` attribute is present and the link
method is one of the two supported values. -/
def networkFold (identifier : String) (max_links : Int) (cutoff : ℚ) (method : String)
    (scores : Scores) (simIdx : String → List Nat) (simScores : String → List ℚ)
    (g : Graph) (l : List (Nat × Spectrum)) : Graph :=
  l.foldl (fun g p =>
    addWeightedEdgesFrom g
      (proposedEdges identifier max_links cutoff method scores simIdx simScores p.1 p.2)) g

theorem foldl_inv {α β : Type} {step : β → α → β} {P : β → Prop} :
    ∀ {l : List α} {g : β}, P g → (∀ g' a, a ∈ l → P g' → P (step g' a)) →
      P (l.foldl step g) := by
  intro l
  induction l with
  | nil => intro g hg _; exact hg
  | cons a t ih =>
    intro g hg hstep
    exact ih (hstep g a (List.mem_cons_self _ _) hg)
      (fun g' a' ha' => hstep g' a' (List.mem_cons_of_mem _ ha'))

theorem buildLoop_ok {identifier : String} {max_links : Int} {c : ℚ} {m : String}
    {scores : Scores} {simIdx : String → List Nat} {simScores : String → List ℚ}
    (hm : m = "single" ∨ m = "mutual") :
    ∀ (l : List (Nat × Spectrum)) (g : Graph),
      buildLoop identifier max_links (some c) (some m) scores simIdx simScores g l =
        .ok (networkFold identifier max_links c m scores simIdx simScores g l) := by
  intro l
  induction l with
  | nil => intro g; rfl
  | cons p rest ih =>
    intro g
    simp only [buildLoop]
    rw [if_pos hm]
    exact ih _

theorem buildLoop_ok_inv {identifier : String} {max_links : Int} {co : Option ℚ}
    {mo : Option String} {scores : Scores} {simIdx : String → List Nat}
    {simScores : String → List ℚ} {g g' : Graph} {l : List (Nat × Spectrum)}
    (h : buildLoop identifier max_links co mo scores simIdx simScores g l = .ok g') :
    (l = [] ∧ g' = g) ∨
      ∃ c m, co = some c ∧ mo = some m ∧ (m = "single" ∨ m = "mutual") ∧
        g' = networkFold identifier max_links c m scores simIdx simScores g l := by
  cases l with
  | nil =>
    refine Or.inl ⟨rfl, ?_⟩
    simp only [buildLoop] at h
    exact (Except.ok.inj h).symm
  | cons p rest =>
    refine Or.inr ?_
    cases co with
    | none => simp [buildLoop] at h
    | some c =>
      cases mo with
      | none => simp [buildLoop] at h
      | some m =>
        by_cases hm : m = "single" ∨ m = "mutual"
        · refine ⟨c, m, rfl, rfl, hm, ?_⟩
          simp only [buildLoop] at h
          rw [if_pos hm, buildLoop_ok hm rest _] at h
          exact (Except.ok.inj h).symm
        · simp only [buildLoop] at h
          rw [if_neg hm] at h
          exact absurd h (by simp)

/-- Inversion of a successful `create_network` call: both asserts
passed, the new graph replaced the stored one, and the new graph is the
initial node-only graph (empty query list) or the full edge fold under a
present cutoff attribute and a supported link method. -/
theorem create_network_ok_inv {st : SimilarityNetwork} {scores : Scores}
    (h : (st.create_network scores).2 = none) :
    scores.queries = scores.references ∧ st.max_links ≤ st.top_n ∧
      ∃ g, (st.create_network scores).1 = { st with graph := some g } ∧
        ((scores.queries.enum = [] ∧ g = ⟨uniqueIds st.identifier scores, []⟩) ∨
          ∃ c m, st.cutoff = some c ∧ st.link_method = some m ∧
            (m = "single" ∨ m = "mutual") ∧
            g = networkFold st.identifier st.max_links c m scores
                  (get_top_hits scores st.top_n st.identifier).1
                  (get_top_hits scores st.top_n st.identifier).2
                  ⟨uniqueIds st.identifier scores, []⟩ scores.queries.enum) := by
  unfold SimilarityNetwork.create_network at h
  split at h
  · exact absurd h (by simp)
  · split at h
    · exact absurd h (by simp)
    · rename_i h1 h2
      have h1' := not_not.mp h1
      have h2' := not_not.mp h2
      cases hb : buildLoop st.identifier st.max_links st.cutoff st.link_method
          scores (get_top_hits scores st.top_n st.identifier).1
          (get_top_hits scores st.top_n st.identifier).2
          ⟨uniqueIds st.identifier scores, []⟩ scores.queries.enum with
      | error e => rw [hb] at h; exact absurd h (by simp)
      | ok g2 =>
        refine ⟨h2', h1', g2, ?_, ?_⟩
        · show (st.create_network scores).1 = _
          unfold SimilarityNetwork.create_network
          rw [if_neg h1, if_neg h2, hb]
        · rcases buildLoop_ok_inv hb with ⟨hl, rfl⟩ | ⟨c, m, hc, hm, hv, rfl⟩
          · exact Or.inl ⟨hl, rfl⟩
          · exact Or.inr ⟨c, m, hc, hm, hv, rfl⟩

theorem networkFold_hasEdge_iff {identifier : String} {max_links : Int} {c : ℚ}
    {m : String} {scores : Scores} {simIdx : String → List Nat}
    {simScores : String → List ℚ} :
    ∀ {l : List (Nat × Spectrum)} {g : Graph} {a b : String},
      (networkFold identifier max_links c m scores simIdx simScores g l).hasEdge a b ↔
        g.hasEdge a b ∨ ∃ p ∈ l,
          pairMem (proposedEdges identifier max_links c m scores simIdx simScores p.1 p.2)
            a b := by
  intro l
  induction l with
  | nil => intro g a b; simp [networkFold]
  | cons p t ih =>
    intro g a b
    show (networkFold identifier max_links c m scores simIdx simScores
      (addWeightedEdgesFrom g
        (proposedEdges identifier max_links c m scores simIdx simScores p.1 p.2)) t).hasEdge
        a b ↔ _
    rw [ih, addWeightedEdgesFrom_hasEdge_iff]
    constructor
    · rintro ((h | h) | ⟨p', hp', h⟩)
      · exact Or.inl h
      · exact Or.inr ⟨p, List.mem_cons_self _ _, h⟩
      · exact Or.inr ⟨p', List.mem_cons_of_mem _ hp', h⟩
    · rintro (h | ⟨p', hp', h⟩)
      · exact Or.inl (Or.inl h)
      · rcases List.mem_cons.mp hp' with rfl | hp''
        · exact Or.inl (Or.inr h)
        · exact Or.inr ⟨p', hp'', h⟩

/-! ### The claims -/

/-- C2 (amended): every edge weight of a graph produced by a successful
`create_network` call is at least the builder's effective `cutoff`
attribute.  The claim as stated compares against `score_cutoff`, but the
source filters on `self.cutoff` (line 102), which `__init__` never
initializes from `score_cutoff`; `w ≥ score_cutoff` therefore holds
exactly when the effective cutoff attribute equals `score_cutoff`. -/
theorem create_network_edges_ge_effective_cutoff (st : SimilarityNetwork) (scores : Scores)
    (h : (st.create_network scores).2 = none) (g : Graph)
    (hg : (st.create_network scores).1.graph = some g) :
    ∀ e ∈ g.edges, ∃ c, st.cutoff = some c ∧ c ≤ e.2.2 := by
  obtain ⟨hq, ht, g2, hst, hcases⟩ := create_network_ok_inv h
  rw [hst] at hg
  have hgg : g2 = g := by simpa using hg
  subst hgg
  rcases hcases with ⟨-, rfl⟩ | ⟨c, m, hc, hm, hv, rfl⟩
  · intro e he; exact absurd he (List.not_mem_nil e)
  · intro e he
    refine ⟨c, hc, ?_⟩
    have key : ∀ e' ∈ (networkFold st.identifier st.max_links c m scores
        (get_top_hits scores st.top_n st.identifier).1
        (get_top_hits scores st.top_n st.identifier).2
        ⟨uniqueIds st.identifier scores, []⟩ scores.queries.enum).edges,
        True ∧ c ≤ e'.2.2 := by
      refine foldl_inv (P := fun g' : Graph => ∀ e' ∈ g'.edges, True ∧ c ≤ e'.2.2) ?_ ?_
      · intro e' he'; exact absurd he' (List.not_mem_nil e')
      · intro g' p hp hInv
        exact addWeightedEdgesFrom_edge_inv (P := fun _ _ => True) (Q := fun w => c ≤ w)
          hInv (fun e' he' => ⟨trivial, (mem_proposedEdges he').2.1⟩)
    exact (key e he).2

/-- C3: after a successful `create_network` call, every query item's
identifier value is a node of the produced graph (items with no
qualifying edge included), and the node list holds no duplicates, so
duplicate identifiers collapse to a single node. -/
theorem create_network_node_completeness (st : SimilarityNetwork) (scores : Scores)
    (h : (st.create_network scores).2 = none) (g : Graph)
    (hg : (st.create_network scores).1.graph = some g) :
    (∀ s ∈ scores.queries, s.get st.identifier ∈ g.nodes) ∧ g.nodes.Nodup := by
  obtain ⟨hq, ht, g2, hst, hcases⟩ := create_network_ok_inv h
  rw [hst] at hg
  have hgg : g2 = g := by simpa using hg
  subst hgg
  have hinit : (∀ s ∈ scores.queries,
      s.get st.identifier ∈ (uniqueIds st.identifier scores)) ∧
      (uniqueIds st.identifier scores).Nodup :=
    ⟨fun s hs => List.mem_dedup.mpr (List.mem_map_of_mem _ hs), List.nodup_dedup _⟩
  rcases hcases with ⟨-, rfl⟩ | ⟨c, m, hc, hm, hv, rfl⟩
  · exact hinit
  · refine foldl_inv (P := fun g' : Graph =>
      (∀ s ∈ scores.queries, s.get st.identifier ∈ g'.nodes) ∧ g'.nodes.Nodup)
      hinit ?_
    intro g' p hp hInv
    refine ⟨?_, addWeightedEdgesFrom_nodes_nodup hInv.2⟩
    intro s hs
    exact mem_addWeightedEdgesFrom_nodes.mpr (Or.inl (hInv.1 s hs))

/-- C4: no self-loops — every edge of a graph produced by a successful
`create_network` call connects two distinct identifiers, because a
candidate equal to the query identifier is filtered out before edges
are formed (source line 103). -/
theorem create_network_no_self_loops (st : SimilarityNetwork) (scores : Scores)
    (h : (st.create_network scores).2 = none) (g : Graph)
    (hg : (st.create_network scores).1.graph = some g) :
    ∀ e ∈ g.edges, e.1 ≠ e.2.1 := by
  obtain ⟨hq, ht, g2, hst, hcases⟩ := create_network_ok_inv h
  rw [hst] at hg
  have hgg : g2 = g := by simpa using hg
  subst hgg
  rcases hcases with ⟨-, rfl⟩ | ⟨c, m, hc, hm, hv, rfl⟩
  · intro e he; exact absurd he (List.not_mem_nil e)
  · intro e he
    have key : ∀ e' ∈ (networkFold st.identifier st.max_links c m scores
        (get_top_hits scores st.top_n st.identifier).1
        (get_top_hits scores st.top_n st.identifier).2
        ⟨uniqueIds st.identifier scores, []⟩ scores.queries.enum).edges,
        e'.1 ≠ e'.2.1 ∧ True := by
      refine foldl_inv (P := fun g' : Graph => ∀ e' ∈ g'.edges, e'.1 ≠ e'.2.1 ∧ True) ?_ ?_
      · intro e' he'; exact absurd he' (List.not_mem_nil e')
      · intro g' p hp hInv
        refine addWeightedEdgesFrom_edge_inv (P := fun a b => a ≠ b) (Q := fun _ => True)
          hInv ?_
        intro e' he'
        obtain ⟨h1, -, h3, -⟩ := mem_proposedEdges he'
        refine ⟨?_, trivial⟩
        rw [h1]
        exact fun hh => h3 (hh.symm)
    exact (key e he).1

/-- C10 (implicit claim): the node set of a graph produced by a
successful `create_network` call is exactly the set of identifier values
of the input items — edge insertion never introduces an endpoint outside
the unique-identifier node set, since each edge starts at a query
identifier and ends at the identifier of a reference item, and the
reference collection equals the query collection. -/
theorem create_network_node_set_eq_unique_ids (st : SimilarityNetwork) (scores : Scores)
    (h : (st.create_network scores).2 = none) (g : Graph)
    (hg : (st.create_network scores).1.graph = some g) :
    ∀ n, n ∈ g.nodes ↔ ∃ s ∈ scores.queries, s.get st.identifier = n := by
  obtain ⟨hq, ht, g2, hst, hcases⟩ := create_network_ok_inv h
  rw [hst] at hg
  have hgg : g2 = g := by simpa using hg
  subst hgg
  have hinit : ∀ n, n ∈ (uniqueIds st.identifier scores) ↔
      ∃ s ∈ scores.queries, s.get st.identifier = n := by
    intro n
    rw [uniqueIds, List.mem_dedup, List.mem_map]
  rcases hcases with ⟨-, rfl⟩ | ⟨c, m, hc, hm, hv, rfl⟩
  · exact hinit
  · refine foldl_inv (P := fun g' : Graph =>
      ∀ n, n ∈ g'.nodes ↔ ∃ s ∈ scores.queries, s.get st.identifier = n) hinit ?_
    intro g' p hp hInv
    intro n
    rw [mem_addWeightedEdgesFrom_nodes]
    constructor
    · rintro (hn | ⟨e, he, hn⟩)
      · exact (hInv n).mp hn
      · obtain ⟨h1, -, -, x, hx, h4⟩ := mem_proposedEdges he
        rcases hn with rfl | rfl
        · exact ⟨p.2, snd_mem_of_mem_enum hp, h1.symm⟩
        · have hlt := get_top_hits_idx_lt hx
          have hmem : scores.references.getD x ⟨[]⟩ ∈ scores.queries := by
            rw [hq, List.getD_eq_getElem _ _ hlt]
            exact List.getElem_mem hlt
          exact ⟨scores.references.getD x ⟨[]⟩, hmem, h4.symm⟩
    · intro hn
      exact Or.inl ((hInv n).mpr hn)

/-- A `create_network` call whose two asserts pass and whose `cutoff`
and `link_method` attributes are present with a supported method value
completes normally and stores exactly the graph of the pure edge fold. -/
theorem create_network_valid_eq (st : SimilarityNetwork) (scores : Scores) (c : ℚ)
    (m : String) (hq : scores.queries = scores.references) (ht : st.max_links ≤ st.top_n)
    (hc : st.cutoff = some c) (hm : st.link_method = some m)
    (hv : m = "single" ∨ m = "mutual") :
    st.create_network scores =
      ({ st with graph := some (networkFold st.identifier st.max_links c m scores
          (get_top_hits scores st.top_n st.identifier).1
          (get_top_hits scores st.top_n st.identifier).2
          ⟨uniqueIds st.identifier scores, []⟩ scores.queries.enum) }, none) := by
  unfold SimilarityNetwork.create_network
  rw [if_neg (not_not_intro ht), if_neg (not_not_intro hq), hc, hm, buildLoop_ok hv]

/-- C5: single-link monotonicity — for one fixed configuration and
symmetric input, every edge of the graph built with
`link_method = "mutual"` is also an edge of the graph built with
`link_method = "single"` (edges taken as unordered endpoint pairs, the
form in which `networkx.Graph.edges` exposes the edge set): the mutual
method only filters each query's proposal list further. -/
theorem create_network_mutual_edges_subset_single (st : SimilarityNetwork)
    (scores : Scores) (c : ℚ) (hq : scores.queries = scores.references)
    (ht : st.max_links ≤ st.top_n) (hc : st.cutoff = some c)
    (hm : st.link_method = some "mutual") :
    ∃ gm gs,
      (st.create_network scores).1.graph = some gm ∧
      (({ st with link_method := some "single" }).create_network scores).1.graph = some gs ∧
      ∀ a b, gm.hasEdge a b → gs.hasEdge a b := by
  have h1 := create_network_valid_eq st scores c "mutual" hq ht hc hm (Or.inr rfl)
  have h2 := create_network_valid_eq { st with link_method := some "single" } scores c
    "single" hq ht hc rfl (Or.inl rfl)
  refine ⟨networkFold st.identifier st.max_links c "mutual" scores
      (get_top_hits scores st.top_n st.identifier).1
      (get_top_hits scores st.top_n st.identifier).2
      ⟨uniqueIds st.identifier scores, []⟩ scores.queries.enum,
    networkFold st.identifier st.max_links c "single" scores
      (get_top_hits scores st.top_n st.identifier).1
      (get_top_hits scores st.top_n st.identifier).2
      ⟨uniqueIds st.identifier scores, []⟩ scores.queries.enum, ?_, ?_, ?_⟩
  · rw [h1]
  · rw [h2]
  · intro a b hab
    rw [networkFold_hasEdge_iff] at hab ⊢
    rcases hab with h | ⟨p, hp, hpm⟩
    · exact Or.inl h
    · refine Or.inr ⟨p, hp, ?_⟩
      obtain ⟨e, he, hor⟩ := hpm
      exact ⟨e, proposedEdges_mutual_sublist.mem he, hor⟩

/-- C7 counterexample: constructing with `top_n = 5, max_links = 10`
raises nothing — `__init__` performs no validation and returns an
ordinary instance storing the invalid combination unchecked, so the
claimed construction-time configuration error does not exist. -/
theorem init_performs_no_validation :
    SimilarityNetwork.init "spectrumid" 5 10 (7/10) =
      { identifier := "spectrumid", top_n := 5, max_links := 10, score_cutoff := 7/10,
        cutoff := none, link_method := none, graph := none } := rfl

/-- C7 (amended): the `top_n >= max_links` configuration error is raised
not at construction but by the first statement of `create_network`
(source line 83), before any computation on the matrix, leaving the
builder untouched. -/
theorem create_network_rejects_top_n_lt_max_links (st : SimilarityNetwork)
    (scores : Scores) (h : ¬ (st.max_links ≤ st.top_n)) :
    st.create_network scores = (st, some "AssertionError: top_n must be >= max_links") := by
  unfold SimilarityNetwork.create_network
  rw [if_pos h]

/-- C8: a scores object that is not symmetric in item identity makes
`create_network` fail with the symmetry assertion (given a valid
`top_n`/`max_links` configuration, whose own assert runs first), and on
any failure whatsoever the builder is left untouched — in particular the
previously stored graph survives and no partial graph is exposed. -/
theorem create_network_symmetry_check_and_atomic_graph (st : SimilarityNetwork)
    (scores : Scores) :
    (st.max_links ≤ st.top_n → scores.queries ≠ scores.references →
      st.create_network scores =
        (st, some "AssertionError: Expected symmetric scores object with queries==references"))
    ∧ (∀ e, (st.create_network scores).2 = some e → (st.create_network scores).1 = st) := by
  constructor
  · intro ht hq
    unfold SimilarityNetwork.create_network
    rw [if_neg (not_not_intro ht), if_pos hq]
  · intro e he
    by_cases h1 : ¬ (st.max_links ≤ st.top_n)
    · unfold SimilarityNetwork.create_network
      rw [if_pos h1]
    · by_cases h2 : ¬ (scores.queries = scores.references)
      · unfold SimilarityNetwork.create_network
        rw [if_neg h1, if_pos h2]
      · cases hb : buildLoop st.identifier st.max_links st.cutoff st.link_method
            scores (get_top_hits scores st.top_n st.identifier).1
            (get_top_hits scores st.top_n st.identifier).2
            ⟨uniqueIds st.identifier scores, []⟩ scores.queries.enum with
        | error e2 =>
          unfold SimilarityNetwork.create_network
          rw [if_neg h1, if_neg h2, hb]
        | ok g2 =>
          exfalso
          unfold SimilarityNetwork.create_network at he
          rw [if_neg h1, if_neg h2, hb] at he
          simp at he

/-- C9 (amended): with the `cutoff` attribute present, a supported-value
check reached (nonempty query collection, both asserts passing) and a
link method other than `"single"` or `"mutual"`, `create_network` fails
with the `ValueError` of source line 112 during the first loop
iteration, before any edge is added, and leaves the builder unchanged;
on an empty query collection the loop body never runs and the error is
skipped. -/
theorem create_network_unknown_link_method_fails (st : SimilarityNetwork)
    (scores : Scores) (c : ℚ) (m : String) (hc : st.cutoff = some c)
    (hm : st.link_method = some m) (h1 : m ≠ "single") (h2 : m ≠ "mutual")
    (ht : st.max_links ≤ st.top_n) (hq : scores.queries = scores.references)
    (hne : scores.queries ≠ []) :
    st.create_network scores = (st, some "ValueError: Link method not kown") := by
  obtain ⟨q, t, hqt⟩ := List.exists_cons_of_ne_nil hne
  unfold SimilarityNetwork.create_network
  rw [if_neg (not_not_intro ht), if_neg (not_not_intro hq), hc, hm, hqt, List.enum_cons]
  simp only [buildLoop]
  rw [if_neg (fun hv => hv.elim h1 h2)]

/-! ### Concrete scenarios -/

/-- Items of the worked example of spec section 8 (all scores scaled by
ten so every rational is an integer). -/
def specA : Spectrum := ⟨[("testID", "A")]⟩

def specB : Spectrum := ⟨[("testID", "B")]⟩

def specC : Spectrum := ⟨[("testID", "C")]⟩

/-- Symmetric three-item matrix: A-B scores 9, A-C scores 5, B-C
scores 3 (spec section 8, example scenario, scaled by ten). -/
def scoresABC : Scores :=
  { queries := [specA, specB, specC]
    references := [specA, specB, specC]
    score := fun i j =>
      if i = j then 10
      else if (i = 0 ∧ j = 1) ∨ (i = 1 ∧ j = 0) then 9
      else if (i = 0 ∧ j = 2) ∨ (i = 2 ∧ j = 0) then 5
      else 3 }

/-- A builder whose missing attributes have been filled consistently
(`cutoff` equal to `score_cutoff`, single linking). -/
def stSingle : SimilarityNetwork :=
  { SimilarityNetwork.init "testID" 20 10 7 with
    cutoff := some 7, link_method := some "single" }

/-- The same builder with mutual linking. -/
def stMutual : SimilarityNetwork :=
  { SimilarityNetwork.init "testID" 20 10 7 with
    cutoff := some 7, link_method := some "mutual" }

/-- The graph `stSingle.create_network scoresABC` produces: nodes A, B,
C and the single qualifying edge (A, B) of weight 9; C is isolated. -/
def graphABC : Graph := ⟨["A", "B", "C"], [("A", "B", 9)]⟩

/-- A scores object with no items at all. -/
def scoresEmpty : Scores := { queries := [], references := [], score := fun _ _ => 0 }

/-- An identity-asymmetric scores object (one query, no references). -/
def scoresAsym : Scores := { queries := [specA], references := [], score := fun _ _ => 0 }

/-- A builder configured with an unsupported link method. -/
def stUnknownMethod : SimilarityNetwork :=
  { SimilarityNetwork.init "testID" 20 10 7 with
    cutoff := some 7, link_method := some "both" }

/-- A builder whose effective cutoff attribute (0) disagrees with its
`score_cutoff` field (7). -/
def stLowCutoff : SimilarityNetwork :=
  { SimilarityNetwork.init "testID" 20 10 7 with
    cutoff := some 0, link_method := some "single" }

/-- Two items under the default identifier key, every cross score 8. -/
def specOne : Spectrum := ⟨[("spectrumid", "one")]⟩

def specTwo : Spectrum := ⟨[("spectrumid", "two")]⟩

/-- A small nonempty symmetric scores object over the two items. -/
def scoresPair : Scores :=
  { queries := [specOne, specTwo]
    references := [specOne, specTwo]
    score := fun i j => if i = j then 10 else 8 }

/-- C1 (refuted by the code): `create_network` reads the attribute
`cutoff` (source line 102) that `__init__` never assigns — a freshly
constructed builder raises `AttributeError` in the first loop iteration
on any nonempty symmetric input (`link_method`, read on line 104, is
equally unassigned), so the configuration the algorithm reads is not
the configuration assigned and validated at construction. -/
theorem create_network_reads_unassigned_cutoff :
    (SimilarityNetwork.init "spectrumid" 20 10 (7/10)).create_network scoresPair =
      (SimilarityNetwork.init "spectrumid" 20 10 (7/10),
       some "AttributeError: SimilarityNetwork object has no attribute cutoff") := rfl

/-- C2 counterexample: with the effective `cutoff` attribute 0 and
`score_cutoff` 7, a successful run stores edges of weights 5 and 3,
both strictly below `score_cutoff` — the cutoff invariant stated with
`score_cutoff` is false on the code. -/
theorem cutoff_vs_score_cutoff_counterexample :
    (stLowCutoff.create_network scoresABC).1.graph =
      some ⟨["A", "B", "C"], [("A", "B", 9), ("A", "C", 5), ("B", "C", 3)]⟩ ∧
    (5 : ℚ) < stLowCutoff.score_cutoff := by decide

/-- Witness for C2's amended theorem: the concrete single-link run on
the three-item example succeeds and its one edge satisfies the
effective-cutoff bound. -/
theorem create_network_edges_ge_effective_cutoff_witness :
    (stSingle.create_network scoresABC).2 = none ∧
      ∀ e ∈ graphABC.edges, ∃ c, stSingle.cutoff = some c ∧ c ≤ e.2.2 :=
  ⟨by decide, create_network_edges_ge_effective_cutoff stSingle scoresABC (by decide)
    graphABC (by decide)⟩

/-- Witness for C3 at the three-item example (C is an isolated node). -/
theorem create_network_node_completeness_witness :
    (∀ s ∈ scoresABC.queries, s.get stSingle.identifier ∈ graphABC.nodes) ∧
      graphABC.nodes.Nodup :=
  create_network_node_completeness stSingle scoresABC (by decide) graphABC (by decide)

/-- Witness for C4 at the three-item example, instantiated at its one
edge (A, B, 9). -/
theorem create_network_no_self_loops_witness :
    ("A", "B", (9 : ℚ)).1 ≠ ("A", "B", (9 : ℚ)).2.1 :=
  create_network_no_self_loops stSingle scoresABC (by decide) graphABC (by decide)
    ("A", "B", 9) (by decide)

/-- Witness for C5 at the three-item example. -/
theorem create_network_mutual_edges_subset_single_witness :
    ∃ gm gs,
      (stMutual.create_network scoresABC).1.graph = some gm ∧
      (({ stMutual with link_method := some "single" }).create_network scoresABC).1.graph
        = some gs ∧
      ∀ a b, gm.hasEdge a b → gs.hasEdge a b :=
  create_network_mutual_edges_subset_single stMutual scoresABC 7 (by decide) (by decide)
    rfl rfl

/-- Witness for C6 at the three-item example. -/
theorem proposedEdges_degree_cap_witness :
    ((proposedEdges "testID" 10 7 "single" scoresABC
        (get_top_hits scoresABC 20 "testID").1
        (get_top_hits scoresABC 20 "testID").2 0 specA).length : Int) ≤ 10 :=
  proposedEdges_degree_cap "testID" 10 7 "single" scoresABC
    (get_top_hits scoresABC 20 "testID").1
    (get_top_hits scoresABC 20 "testID").2 0 specA (by decide)

/-- Witness for C7's amended theorem: the invalid `top_n = 5,
max_links = 10` builder fails at the start of `create_network`. -/
theorem create_network_rejects_top_n_lt_max_links_witness :
    (SimilarityNetwork.init "spectrumid" 5 10 (7/10)).create_network scoresEmpty =
      (SimilarityNetwork.init "spectrumid" 5 10 (7/10),
       some "AssertionError: top_n must be >= max_links") :=
  create_network_rejects_top_n_lt_max_links _ _ (by decide)

/-- Witness for C8 at a concrete asymmetric input. -/
theorem create_network_symmetry_check_and_atomic_graph_witness :
    stSingle.create_network scoresAsym =
      (stSingle,
       some "AssertionError: Expected symmetric scores object with queries==references") :=
  (create_network_symmetry_check_and_atomic_graph stSingle scoresAsym).1 (by decide)
    (by decide)

/-- C9 counterexample: with an unsupported link method but an empty
query collection, `create_network` succeeds (the loop body containing
the `ValueError` never runs) — the claim that any unsupported
`link_method` makes `create_network` fail is false on the empty input. -/
theorem unknown_link_method_empty_input_succeeds :
    (stUnknownMethod.create_network scoresEmpty).2 = none := by decide

/-- Witness for C9's amended theorem at a concrete nonempty input. -/
theorem create_network_unknown_link_method_fails_witness :
    stUnknownMethod.create_network scoresABC =
      (stUnknownMethod, some "ValueError: Link method not kown") :=
  create_network_unknown_link_method_fails stUnknownMethod scoresABC 7 "both" rfl rfl
    (by decide) (by decide) (by decide) (by decide) (by decide)

/-- Witness for C10 at the three-item example, instantiated at the
isolated node C. -/
theorem create_network_node_set_eq_unique_ids_witness :
    "C" ∈ graphABC.nodes ↔ ∃ s ∈ scoresABC.queries, s.get stSingle.identifier = "C" :=
  create_network_node_set_eq_unique_ids stSingle scoresABC (by decide) graphABC (by decide)
    "C"

end Matchms
